import Mathlib

/-!
Shallow embedding of the timeline scheduling and playback-synchronization
engine of `src/lib/components/Timeline.svelte` (a Svelte multi-track
oscillator sequencer), together with proofs of the spec's claims about it.

Times are rationals. Wall-clock instants (`performance.now()`) are in
milliseconds, timeline positions (`currentTime`, block `startTime`,
`duration`) in seconds, exactly as in the source (the source converts with
`* 1000` / `/ 1000`).

The component's mutable state (`currentTime`, `duration`, `isPlaying`,
`tracks`, `blocks`, `selectedBlockId`, `nextBlockId`, the `oscillators`
Map, the reference epoch `startTime`, the pending animation frame) is
collected in `EngineState`; each handler becomes a function
`EngineState → ... → EngineState × List Instr`, where the `List Instr`
records the calls made against the Web Audio backend
(`oscillator.start()` / `oscillator.stop()`) in order.

The `gainNodes` Map of the source is maintained in lockstep with
`oscillators` (every insertion and deletion of the source touches both
under the same key), carries no state any claim mentions, and is omitted.
-/

inductive Waveform where
  | sine
  | triangle
  | square
  | sawtooth
deriving DecidableEq

structure Track where
  id : Nat
  name : String
  frequency : ℚ
  type : Waveform
deriving DecidableEq

structure Block where
  id : Nat
  trackId : Nat
  startTime : ℚ
  duration : ℚ
  frequency : ℚ
  type : Waveform
deriving DecidableEq

/-- A live oscillator node as configured at creation time
(`createOscillator` sets frequency and type once; there is no later
mutation of a stored node in the source). -/
structure Osc where
  frequency : ℚ
  type : Waveform
deriving DecidableEq

/-- A call made against the Web Audio backend: `oscillator.start()` of a
freshly created and connected node, or `oscillator.stop()`. -/
inductive Instr where
  | start (blockId : Nat) (frequency : ℚ) (type : Waveform)
  | stop (blockId : Nat)
deriving DecidableEq

/-- The `event.detail` payload of a block `update` event
(`const \x7b id, startTime, duration, frequency, type, trackId \x7d = event.detail`). -/
structure BlockUpdate where
  id : Nat
  startTime : ℚ
  duration : ℚ
  frequency : ℚ
  type : Waveform
  trackId : Nat
deriving DecidableEq

/-- JS `Map.get` on the `oscillators : Map<number, OscillatorNode>` map,
modelled as an association list. -/
def mapLookup (m : List (Nat × Osc)) (k : Nat) : Option Osc :=
  (m.find? (fun p => p.1 == k)).map (fun p => p.2)

/-- JS `Map.delete`. -/
def mapDelete (m : List (Nat × Osc)) (k : Nat) : List (Nat × Osc) :=
  m.filter (fun p => p.1 != k)

/-- JS `Map.set`: overwrite in place when the key is present, append
otherwise. -/
def mapSet (m : List (Nat × Osc)) (k : Nat) (v : Osc) : List (Nat × Osc) :=
  if (mapLookup m k).isSome then
    m.map (fun p => if p.1 == k then (k, v) else p)
  else
    m ++ [(k, v)]

/-- The component state of `Timeline.svelte`. `startEpoch` is the
`startTime` variable of the source (the reference epoch in milliseconds);
`audioInit` records whether `initAudioContext` has run;
`frameScheduled` records a pending `requestAnimationFrame` registration. -/
structure EngineState where
  currentTime : ℚ
  duration : ℚ
  isPlaying : Bool
  tracks : List Track
  blocks : List Block
  selectedBlockId : Option Nat
  nextBlockId : Nat
  audioInit : Bool
  oscillators : List (Nat × Osc)
  startEpoch : ℚ
  frameScheduled : Bool
deriving DecidableEq

/-- The `$state` initializers of the component. -/
def initState : EngineState where
  currentTime := 0
  duration := 60
  isPlaying := false
  tracks :=
    [ { id := 1, name := "Track 1", frequency := 440, type := Waveform.sine },
      { id := 2, name := "Track 2", frequency := 880, type := Waveform.triangle } ]
  blocks :=
    [ { id := 1, trackId := 1, startTime := 0, duration := 4, frequency := 440,
        type := Waveform.sine },
      { id := 2, trackId := 1, startTime := 6, duration := 3, frequency := 660,
        type := Waveform.triangle },
      { id := 3, trackId := 2, startTime := 2, duration := 5, frequency := 880,
        type := Waveform.square } ]
  selectedBlockId := none
  nextBlockId := 4
  audioInit := false
  oscillators := []
  startEpoch := 0
  frameScheduled := false

/-- `stopOscillator(blockId)`: if a node is stored for the id, call its
`.stop()` and delete it from the map(s); otherwise do nothing. -/
def stopOscillator (s : EngineState) (blockId : Nat) : EngineState × List Instr :=
  match mapLookup s.oscillators blockId with
  | some _ =>
      ({ s with oscillators := mapDelete s.oscillators blockId }, [Instr.stop blockId])
  | none => (s, [])

/-- `createOscillator(blockId, frequency, type)`: no-op when the audio
context was never initialized (`if (!audioContext || !masterGain) return`);
otherwise stop any existing oscillator for the id, create and connect a
fresh node, store it, and call `.start()` on it. -/
def createOscillator (s : EngineState) (blockId : Nat) (frequency : ℚ)
    (type : Waveform) : EngineState × List Instr :=
  if s.audioInit = false then (s, [])
  else
    let r1 := stopOscillator s blockId
    ({ r1.1 with oscillators := mapSet r1.1.oscillators blockId ⟨frequency, type⟩ },
      r1.2 ++ [Instr.start blockId frequency type])

/-- `stopAllOscillators()`: call `.stop()` on every stored node and clear
the maps. -/
def stopAllOscillators (s : EngineState) : EngineState × List Instr :=
  ({ s with oscillators := [] }, s.oscillators.map (fun p => Instr.stop p.1))

/-- `getActiveBlocks()`: the blocks whose interval
`[startTime, startTime + duration)` contains `currentTime`. -/
def getActiveBlocks (s : EngineState) : List Block :=
  s.blocks.filter (fun block =>
    decide (block.startTime ≤ s.currentTime ∧
      s.currentTime < block.startTime + block.duration))

/-- First loop of `updateActiveOscillators`: for each block of the store
that is not in the active set, stop its oscillator. -/
def stopInactivePhase (active : List Block) :
    EngineState → List Block → EngineState × List Instr
  | s, [] => (s, [])
  | s, block :: rest =>
    if active.any (fun activeBlock => activeBlock.id == block.id) then
      stopInactivePhase active s rest
    else
      let r1 := stopOscillator s block.id
      let r2 := stopInactivePhase active r1.1 rest
      (r2.1, r1.2 ++ r2.2)

/-- Second loop of `updateActiveOscillators`: for each active block with no
stored oscillator, create one. -/
def startActivePhase : EngineState → List Block → EngineState × List Instr
  | s, [] => (s, [])
  | s, block :: rest =>
    if (mapLookup s.oscillators block.id).isSome then
      startActivePhase s rest
    else
      let r1 := createOscillator s block.id block.frequency block.type
      let r2 := startActivePhase r1.1 rest
      (r2.1, r1.2 ++ r2.2)

/-- `updateActiveOscillators()`: one reconciliation pass. -/
def updateActiveOscillators (s : EngineState) : EngineState × List Instr :=
  let active := getActiveBlocks s
  let r1 := stopInactivePhase active s s.blocks
  let r2 := startActivePhase r1.1 active
  (r2.1, r1.2 ++ r2.2)

/-- `stopPlayback()`: clear `isPlaying`, stop every oscillator, cancel the
pending animation frame. -/
def stopPlayback (s : EngineState) : EngineState × List Instr :=
  let r := stopAllOscillators { s with isPlaying := false }
  ({ r.1 with frameScheduled := false }, r.2)

/-- `animate()`, one tick at wall-clock instant `now` (ms): when playing,
recompute `currentTime = (now - startTime) / 1000`; at or past the
timeline end, wrap to 0 and stop; otherwise reconcile and request the
next frame. -/
def animate (s : EngineState) (now : ℚ) : EngineState × List Instr :=
  if s.isPlaying = false then (s, [])
  else
    let s1 := { s with currentTime := (now - s.startEpoch) / 1000 }
    if s1.currentTime ≥ s1.duration then
      stopPlayback { s1 with currentTime := 0 }
    else
      let r := updateActiveOscillators s1
      ({ r.1 with frameScheduled := true }, r.2)

/-- `startPlayback()` at wall-clock instant `now` (ms): initialize the
audio context if needed, set `isPlaying`, set the reference epoch
`startTime = now - currentTime * 1000`, and call `animate()` synchronously. -/
def startPlayback (s : EngineState) (now : ℚ) : EngineState × List Instr :=
  let s0 := if s.audioInit = false then { s with audioInit := true } else s
  animate { s0 with isPlaying := true, startEpoch := now - s0.currentTime * 1000 } now

/-- `togglePlay()`. -/
def togglePlay (s : EngineState) (now : ℚ) : EngineState × List Instr :=
  if s.isPlaying then stopPlayback s else startPlayback s now

/-- `seekTo` with the pixel-to-time transform already applied
(`targetTime = x / pixelsPerSecond`): disabled while a block is selected;
clamps into `[0, duration]`; while playing, reconciles immediately.
The reference epoch is not touched. -/
def seekTo (s : EngineState) (targetTime : ℚ) : EngineState × List Instr :=
  if s.selectedBlockId.isSome then (s, [])
  else
    let s1 := { s with currentTime := max 0 (min targetTime s.duration) }
    if s1.isPlaying then updateActiveOscillators s1 else (s1, [])

/-- `addTrack()`. -/
def addTrack (s : EngineState) : EngineState × List Instr :=
  ({ s with tracks := s.tracks ++
      [ { id := s.tracks.length + 1,
          name := "Track " ++ toString (s.tracks.length + 1),
          frequency := 440, type := Waveform.sine } ] }, [])

/-- `removeTrack(trackId)`: drop the track and (cascade) every block that
references it. No oscillator is touched. -/
def removeTrack (s : EngineState) (trackId : Nat) : EngineState × List Instr :=
  ({ s with tracks := s.tracks.filter (fun track => track.id != trackId),
            blocks := s.blocks.filter (fun block => block.trackId != trackId) }, [])

/-- `addBlock(trackId, startTime)`. -/
def addBlock (s : EngineState) (trackId : Nat) (startTime : ℚ) :
    EngineState × List Instr :=
  ({ s with
      blocks := s.blocks ++
        [ { id := s.nextBlockId, trackId := trackId, startTime := startTime,
            duration := 4, frequency := 440, type := Waveform.sine } ],
      nextBlockId := s.nextBlockId + 1 }, [])

/-- The per-block replacement performed by `updateBlock`'s `blocks.map`. -/
def applyBlockUpdate (d : BlockUpdate) (block : Block) : Block :=
  if block.id == d.id then
    { block with
        startTime := d.startTime
        duration := d.duration
        frequency := d.frequency
        type := d.type
        trackId := d.trackId }
  else block

/-- `updateBlock(event)`: replace the fields of the matching block; while
playing, re-create the block's oscillator if it is now active, stop it
otherwise. -/
def updateBlock (s : EngineState) (d : BlockUpdate) : EngineState × List Instr :=
  let s1 := { s with blocks := s.blocks.map (applyBlockUpdate d) }
  if s1.isPlaying then
    match s1.blocks.find? (fun block => block.id == d.id) with
    | some block =>
        if s1.currentTime ≥ block.startTime ∧
            s1.currentTime < block.startTime + block.duration then
          createOscillator s1 block.id block.frequency block.type
        else
          stopOscillator s1 block.id
    | none => (s1, [])
  else (s1, [])

/-- `deleteBlock(event)`: remove the block from the store, then stop its
oscillator unconditionally. -/
def deleteBlock (s : EngineState) (blockId : Nat) : EngineState × List Instr :=
  let s1 := { s with blocks := s.blocks.filter (fun block => block.id != blockId) }
  stopOscillator s1 blockId

/-- `selectBlock` / escape-key / outside-click deselection. -/
def selectBlock (s : EngineState) (sel : Option Nat) : EngineState × List Instr :=
  ({ s with selectedBlockId := sel }, [])

/-- One user-visible or scheduler-visible operation on the engine. -/
inductive Op where
  | togglePlay (now : ℚ)
  | stopBtn
  | tick (now : ℚ)
  | seek (targetTime : ℚ)
  | editBlock (d : BlockUpdate)
  | deleteB (blockId : Nat)
  | removeTr (trackId : Nat)
  | addB (trackId : Nat) (startTime : ℚ)
  | addTr
  | select (sel : Option Nat)

/-- Dispatch one operation. -/
def step (s : EngineState) : Op → EngineState × List Instr
  | Op.togglePlay now => togglePlay s now
  | Op.stopBtn => stopPlayback s
  | Op.tick now => animate s now
  | Op.seek t => seekTo s t
  | Op.editBlock d => updateBlock s d
  | Op.deleteB blockId => deleteBlock s blockId
  | Op.removeTr trackId => removeTrack s trackId
  | Op.addB trackId t => addBlock s trackId t
  | Op.addTr => addTrack s
  | Op.select sel => selectBlock s sel

/-- Run a sequence of operations, concatenating the emitted backend calls. -/
def run (s : EngineState) : List Op → EngineState × List Instr
  | [] => (s, [])
  | op :: rest =>
    let r1 := step s op
    let r2 := run r1.1 rest
    (r2.1, r1.2 ++ r2.2)

/-- A playing state whose clock position (10 s, epoch 0 ms) is about to be
seeked to 5 s. -/
def playingSeekState : EngineState :=
  { initState with isPlaying := true, audioInit := true, currentTime := 10 }

/-- A playing state in which track 2's block 3 is active (playhead at 3 s)
and its generator is live. -/
def playingTrackState : EngineState :=
  { initState with
      isPlaying := true
      audioInit := true
      currentTime := 3
      oscillators := [(3, { frequency := 880, type := Waveform.square })] }

/-- A playing state with the playhead at 1 s inside block 1, whose generator
is live. -/
def playingEditState : EngineState :=
  { initState with
      isPlaying := true
      audioInit := true
      currentTime := 1
      oscillators := [(1, { frequency := 440, type := Waveform.sine })] }

/-- An `update` event payload identical to block 1's current fields. -/
def identityEdit : BlockUpdate :=
  { id := 1, startTime := 0, duration := 4, frequency := 440,
    type := Waveform.sine, trackId := 1 }

/-- An `update` event payload changing block 1's frequency and waveform. -/
def editWitnessUpdate : BlockUpdate :=
  { id := 1, startTime := 0, duration := 4, frequency := 660,
    type := Waveform.triangle, trackId := 1 }

/-- A state with an initialized audio context and a live generator for
block id 1. -/
def dualOscState : EngineState :=
  { initState with
      audioInit := true
      oscillators := [(1, { frequency := 440, type := Waveform.sine })] }

/-- A playing state one second before the timeline end (59 s, epoch 0 ms). -/
def autoStopState : EngineState :=
  { initState with isPlaying := true, currentTime := 59 }

/-- A stopped state seeked exactly to the timeline end (60 s). -/
def endSeekState : EngineState :=
  { initState with currentTime := 60 }

/-! ## Association-list map lemmas -/

theorem mapLookup_nil (k : Nat) : mapLookup [] k = none := rfl

theorem mapLookup_cons (p : Nat × Osc) (m : List (Nat × Osc)) (k : Nat) :
    mapLookup (p :: m) k = if p.1 == k then some p.2 else mapLookup m k := by
  by_cases h : p.1 == k <;> simp [mapLookup, List.find?, h]

theorem mapDelete_cons (p : Nat × Osc) (m : List (Nat × Osc)) (k : Nat) :
    mapDelete (p :: m) k =
      if p.1 = k then mapDelete m k else p :: mapDelete m k := by
  by_cases h : p.1 = k <;> simp [mapDelete, List.filter_cons, h]

theorem mapLookup_delete_self (m : List (Nat × Osc)) (k : Nat) :
    mapLookup (mapDelete m k) k = none := by
  induction m with
  | nil => rfl
  | cons p rest ih =>
      rw [mapDelete_cons]
      by_cases h : p.1 = k
      · simpa [h] using ih
      · simpa [mapLookup_cons, h] using ih

theorem mapLookup_delete_ne (m : List (Nat × Osc)) (k j : Nat) (h : j ≠ k) :
    mapLookup (mapDelete m k) j = mapLookup m j := by
  induction m with
  | nil => rfl
  | cons p rest ih =>
      rw [mapDelete_cons]
      by_cases hp : p.1 = k
      · rw [if_pos hp, mapLookup_cons, ih]
        have : (p.1 == j) = false := by simp [hp, Ne.symm h]
        simp [this]
      · rw [if_neg hp, mapLookup_cons, mapLookup_cons, ih]

theorem mapLookup_append_absent (m : List (Nat × Osc)) (k : Nat) (v : Osc)
    (h : mapLookup m k = none) : mapLookup (m ++ [(k, v)]) k = some v := by
  induction m with
  | nil => simp [mapLookup_cons, mapLookup_nil]
  | cons p rest ih =>
      rw [mapLookup_cons] at h
      by_cases hp : (p.1 == k) = true
      · simp [hp] at h
      · simp only [hp, if_false] at h
        rw [List.cons_append, mapLookup_cons]
        simp only [hp, if_false]
        exact ih h

theorem mapLookup_append_ne (m : List (Nat × Osc)) (k j : Nat) (v : Osc)
    (h : j ≠ k) : mapLookup (m ++ [(k, v)]) j = mapLookup m j := by
  induction m with
  | nil =>
      have : (k == j) = false := by simp [Ne.symm h]
      simp [mapLookup_cons, mapLookup_nil, this]
  | cons p rest ih =>
      rw [List.cons_append, mapLookup_cons, mapLookup_cons, ih]

theorem mapLookup_isSome_any (m : List (Nat × Osc)) (k : Nat)
    (h : (mapLookup m k).isSome = true) : m.any (fun p => p.1 == k) = true := by
  induction m with
  | nil => simp [mapLookup] at h
  | cons p rest ih =>
      rw [mapLookup_cons] at h
      by_cases hp : p.1 == k
      · simp [List.any_cons, hp]
      · simp [hp] at h
        simp [List.any_cons, ih h]

/-! ## Backend-call traces: liveness per block id -/

/-- Effect of one backend call on the per-id liveness of generators. -/
def applyInstr (live : Nat → Bool) : Instr → Nat → Bool
  | Instr.start i _ _ => fun blockId => if blockId = i then true else live blockId
  | Instr.stop i => fun blockId => if blockId = i then false else live blockId

/-- Effect of a trace of backend calls on liveness. -/
def applyTrace (live : Nat → Bool) : List Instr → (Nat → Bool)
  | [] => live
  | ins :: rest => applyTrace (applyInstr live ins) rest

/-- One backend call respects at-most-one-generator-per-id: a `start` for an
id is issued only when no generator for that id is live. -/
def instrOk (live : Nat → Bool) : Instr → Prop
  | Instr.start i _ _ => live i = false
  | Instr.stop _ => True

/-- Every call of the trace respects at-most-one-generator-per-id at the
instant it is issued. -/
def SafeTrace (live : Nat → Bool) : List Instr → Prop
  | [] => True
  | ins :: rest => instrOk live ins ∧ SafeTrace (applyInstr live ins) rest

/-- The stored-oscillator map and a liveness function agree: a generator is
live for an id exactly when the map holds a node for it. -/
def LiveMatches (live : Nat → Bool) (m : List (Nat × Osc)) : Prop :=
  ∀ blockId, live blockId = (mapLookup m blockId).isSome

def isStopInstr : Instr → Bool
  | Instr.stop _ => true
  | Instr.start _ _ _ => false

def isStartInstr : Instr → Bool
  | Instr.start _ _ _ => true
  | Instr.stop _ => false

theorem applyTrace_append (t1 t2 : List Instr) (live : Nat → Bool) :
    applyTrace live (t1 ++ t2) = applyTrace (applyTrace live t1) t2 := by
  induction t1 generalizing live with
  | nil => rfl
  | cons ins rest ih => simp [applyTrace, ih]

theorem safeTrace_append (t1 t2 : List Instr) (live : Nat → Bool) :
    SafeTrace live (t1 ++ t2) ↔
      SafeTrace live t1 ∧ SafeTrace (applyTrace live t1) t2 := by
  induction t1 generalizing live with
  | nil => simp [SafeTrace, applyTrace]
  | cons ins rest ih => simp [SafeTrace, applyTrace, ih, and_assoc]

/-! ## Soundness of each oscillator operation with respect to liveness -/

theorem stopOscillator_sound (s : EngineState) (blockId : Nat) (live : Nat → Bool)
    (h : LiveMatches live s.oscillators) :
    SafeTrace live (stopOscillator s blockId).2 ∧
      LiveMatches (applyTrace live (stopOscillator s blockId).2)
        (stopOscillator s blockId).1.oscillators := by
  cases hl : mapLookup s.oscillators blockId with
  | none =>
      refine ⟨?_, ?_⟩ <;> simp [stopOscillator, hl, SafeTrace, applyTrace]
      exact h
  | some o =>
      refine ⟨?_, ?_⟩
      · simp [stopOscillator, hl, SafeTrace, instrOk]
      · intro j
        by_cases hj : j = blockId
        · subst hj
          simp [stopOscillator, hl, applyTrace, applyInstr, mapLookup_delete_self]
        · simp [stopOscillator, hl, applyTrace, applyInstr, hj,
            mapLookup_delete_ne _ _ _ hj]
          exact h j

/-- After `stopOscillator s blockId` no node is stored for `blockId`. -/
theorem stopOscillator_lookup_self (s : EngineState) (blockId : Nat) :
    mapLookup (stopOscillator s blockId).1.oscillators blockId = none := by
  cases hl : mapLookup s.oscillators blockId with
  | none => simp [stopOscillator, hl]
  | some o => simp [stopOscillator, hl, mapLookup_delete_self]

theorem createOscillator_sound (s : EngineState) (blockId : Nat) (f : ℚ)
    (w : Waveform) (live : Nat → Bool) (h : LiveMatches live s.oscillators) :
    SafeTrace live (createOscillator s blockId f w).2 ∧
      LiveMatches (applyTrace live (createOscillator s blockId f w).2)
        (createOscillator s blockId f w).1.oscillators := by
  by_cases hinit : s.audioInit = false
  · refine ⟨?_, ?_⟩ <;> simp [createOscillator, hinit, SafeTrace, applyTrace]
    exact h
  · obtain ⟨h1, h2⟩ := stopOscillator_sound s blockId live h
    have habs := stopOscillator_lookup_self s blockId
    have hlive1 : applyTrace live (stopOscillator s blockId).2 blockId = false := by
      rw [h2 blockId, habs]; rfl
    refine ⟨?_, ?_⟩
    · rw [createOscillator, if_neg hinit]
      simp only [safeTrace_append]
      exact ⟨h1, hlive1, trivial⟩
    · intro j
      rw [createOscillator, if_neg hinit]
      simp only [applyTrace_append, applyTrace, applyInstr]
      by_cases hj : j = blockId
      · subst hj
        simp [mapSet, habs, mapLookup_append_absent _ _ _ habs]
      · simp only [hj, if_false]
        rw [mapSet, habs]
        simp only [Option.isSome_none, Bool.false_eq_true, if_false,
          mapLookup_append_ne _ _ _ _ hj]
        exact h2 j

theorem applyTrace_stops (m : List (Nat × Osc)) (live : Nat → Bool) (j : Nat) :
    applyTrace live (m.map (fun p => Instr.stop p.1)) j =
      (live j && !(m.any (fun p => p.1 == j))) := by
  induction m generalizing live with
  | nil => simp [applyTrace]
  | cons p rest ih =>
      simp only [List.map_cons, applyTrace, applyInstr, List.any_cons, ih]
      by_cases hj : j = p.1
      · subst hj; simp
      · have : (p.1 == j) = false := by simp [Ne.symm hj]
        simp [hj, this]

theorem safeTrace_all_stops (t : List Instr) (live : Nat → Bool)
    (h : t.all isStopInstr = true) : SafeTrace live t := by
  induction t generalizing live with
  | nil => trivial
  | cons ins rest ih =>
      rw [List.all_cons, Bool.and_eq_true] at h
      cases ins with
      | start i f w => simp [isStopInstr] at h
      | stop i => exact ⟨trivial, ih _ h.2⟩

theorem stopAllOscillators_sound (s : EngineState) (live : Nat → Bool)
    (h : LiveMatches live s.oscillators) :
    SafeTrace live (stopAllOscillators s).2 ∧
      LiveMatches (applyTrace live (stopAllOscillators s).2)
        (stopAllOscillators s).1.oscillators := by
  refine ⟨safeTrace_all_stops _ _ ?_, ?_⟩
  · show (s.oscillators.map (fun p => Instr.stop p.1)).all isStopInstr = true
    induction s.oscillators with
    | nil => rfl
    | cons p rest ih => simpa [isStopInstr] using ih
  · intro j
    simp only [stopAllOscillators, applyTrace_stops, mapLookup_nil,
      Option.isSome_none]
    cases hl : live j with
    | false => rfl
    | true =>
        have := h j
        rw [hl] at this
        rw [mapLookup_isSome_any s.oscillators j this.symm]
        rfl


theorem stopInactivePhase_sound (active : List Block) (l : List Block) :
    ∀ (s : EngineState) (live : Nat → Bool), LiveMatches live s.oscillators →
      SafeTrace live (stopInactivePhase active s l).2 ∧
        LiveMatches (applyTrace live (stopInactivePhase active s l).2)
          (stopInactivePhase active s l).1.oscillators := by
  induction l with
  | nil => intro s live h; exact ⟨trivial, h⟩
  | cons block rest ih =>
      intro s live h
      cases hb : active.any (fun activeBlock => activeBlock.id == block.id) with
      | true => simpa [stopInactivePhase, hb] using ih s live h
      | false =>
          obtain ⟨h1, h2⟩ := stopOscillator_sound s block.id live h
          obtain ⟨h3, h4⟩ := ih _ _ h2
          refine ⟨?_, ?_⟩
          · simp only [stopInactivePhase, hb, Bool.false_eq_true, if_false,
              safeTrace_append]
            exact ⟨h1, h3⟩
          · simp only [stopInactivePhase, hb, Bool.false_eq_true, if_false,
              applyTrace_append]
            exact h4

theorem startActivePhase_sound (l : List Block) :
    ∀ (s : EngineState) (live : Nat → Bool), LiveMatches live s.oscillators →
      SafeTrace live (startActivePhase s l).2 ∧
        LiveMatches (applyTrace live (startActivePhase s l).2)
          (startActivePhase s l).1.oscillators := by
  induction l with
  | nil => intro s live h; exact ⟨trivial, h⟩
  | cons block rest ih =>
      intro s live h
      cases hb : (mapLookup s.oscillators block.id).isSome with
      | true => simpa [startActivePhase, hb] using ih s live h
      | false =>
          obtain ⟨h1, h2⟩ :=
            createOscillator_sound s block.id block.frequency block.type live h
          obtain ⟨h3, h4⟩ := ih _ _ h2
          refine ⟨?_, ?_⟩
          · simp only [startActivePhase, hb, Bool.false_eq_true, if_false,
              safeTrace_append]
            exact ⟨h1, h3⟩
          · simp only [startActivePhase, hb, Bool.false_eq_true, if_false,
              applyTrace_append]
            exact h4

theorem updateActiveOscillators_sound (s : EngineState) (live : Nat → Bool)
    (h : LiveMatches live s.oscillators) :
    SafeTrace live (updateActiveOscillators s).2 ∧
      LiveMatches (applyTrace live (updateActiveOscillators s).2)
        (updateActiveOscillators s).1.oscillators := by
  obtain ⟨h1, h2⟩ := stopInactivePhase_sound (getActiveBlocks s) s.blocks s live h
  obtain ⟨h3, h4⟩ := startActivePhase_sound (getActiveBlocks s) _ _ h2
  refine ⟨?_, ?_⟩
  · simp only [updateActiveOscillators, safeTrace_append]
    exact ⟨h1, h3⟩
  · simp only [updateActiveOscillators, applyTrace_append]
    exact h4

/-! ## Frame lemmas: the oscillator operations only touch the map -/

/-- `s'` agrees with `s` on every component except the oscillator map. -/
def OscOnly (s s' : EngineState) : Prop :=
  s'.currentTime = s.currentTime ∧ s'.duration = s.duration ∧
    s'.isPlaying = s.isPlaying ∧ s'.tracks = s.tracks ∧ s'.blocks = s.blocks ∧
    s'.selectedBlockId = s.selectedBlockId ∧ s'.nextBlockId = s.nextBlockId ∧
    s'.audioInit = s.audioInit ∧ s'.startEpoch = s.startEpoch ∧
    s'.frameScheduled = s.frameScheduled

theorem oscOnly_refl (s : EngineState) : OscOnly s s :=
  ⟨rfl, rfl, rfl, rfl, rfl, rfl, rfl, rfl, rfl, rfl⟩

theorem oscOnly_trans (s s' s'' : EngineState) (h1 : OscOnly s s')
    (h2 : OscOnly s' s'') : OscOnly s s'' := by
  obtain ⟨a1, a2, a3, a4, a5, a6, a7, a8, a9, a10⟩ := h1
  obtain ⟨b1, b2, b3, b4, b5, b6, b7, b8, b9, b10⟩ := h2
  exact ⟨b1.trans a1, b2.trans a2, b3.trans a3, b4.trans a4, b5.trans a5,
    b6.trans a6, b7.trans a7, b8.trans a8, b9.trans a9, b10.trans a10⟩

theorem stopOscillator_oscOnly (s : EngineState) (blockId : Nat) :
    OscOnly s (stopOscillator s blockId).1 := by
  cases hl : mapLookup s.oscillators blockId <;>
    simp [stopOscillator, hl, OscOnly]

theorem createOscillator_oscOnly (s : EngineState) (blockId : Nat) (f : ℚ)
    (w : Waveform) : OscOnly s (createOscillator s blockId f w).1 := by
  cases hinit : s.audioInit with
  | false => simp [createOscillator, hinit, OscOnly]
  | true =>
      have h1 := stopOscillator_oscOnly s blockId
      rw [OscOnly] at h1
      simpa [createOscillator, hinit, OscOnly] using h1

theorem stopAllOscillators_oscOnly (s : EngineState) :
    OscOnly s (stopAllOscillators s).1 :=
  ⟨rfl, rfl, rfl, rfl, rfl, rfl, rfl, rfl, rfl, rfl⟩

theorem stopInactivePhase_oscOnly (active : List Block) (l : List Block) :
    ∀ s : EngineState, OscOnly s (stopInactivePhase active s l).1 := by
  induction l with
  | nil => intro s; exact oscOnly_refl s
  | cons block rest ih =>
      intro s
      cases hb : active.any (fun activeBlock => activeBlock.id == block.id) with
      | true => simpa [stopInactivePhase, hb] using ih s
      | false =>
          have := oscOnly_trans _ _ _ (stopOscillator_oscOnly s block.id)
            (ih (stopOscillator s block.id).1)
          simpa [stopInactivePhase, hb] using this

theorem startActivePhase_oscOnly (l : List Block) :
    ∀ s : EngineState, OscOnly s (startActivePhase s l).1 := by
  induction l with
  | nil => intro s; exact oscOnly_refl s
  | cons block rest ih =>
      intro s
      cases hb : (mapLookup s.oscillators block.id).isSome with
      | true => simpa [startActivePhase, hb] using ih s
      | false =>
          have := oscOnly_trans _ _ _
            (createOscillator_oscOnly s block.id block.frequency block.type)
            (ih (createOscillator s block.id block.frequency block.type).1)
          simpa [startActivePhase, hb] using this

theorem updateActiveOscillators_oscOnly (s : EngineState) :
    OscOnly s (updateActiveOscillators s).1 := by
  have h1 := stopInactivePhase_oscOnly (getActiveBlocks s) s.blocks s
  have h2 := startActivePhase_oscOnly (getActiveBlocks s)
    (stopInactivePhase (getActiveBlocks s) s s.blocks).1
  simpa [updateActiveOscillators] using oscOnly_trans _ _ _ h1 h2

/-! ## Soundness of the transport and edit operations -/

theorem stopPlayback_sound (s : EngineState) (live : Nat → Bool)
    (h : LiveMatches live s.oscillators) :
    SafeTrace live (stopPlayback s).2 ∧
      LiveMatches (applyTrace live (stopPlayback s).2)
        (stopPlayback s).1.oscillators := by
  have h' : LiveMatches live ({ s with isPlaying := false } : EngineState).oscillators := h
  obtain ⟨h1, h2⟩ := stopAllOscillators_sound { s with isPlaying := false } live h'
  exact ⟨h1, h2⟩

theorem animate_sound (s : EngineState) (now : ℚ) (live : Nat → Bool)
    (h : LiveMatches live s.oscillators) :
    SafeTrace live (animate s now).2 ∧
      LiveMatches (applyTrace live (animate s now).2)
        (animate s now).1.oscillators := by
  cases hp : s.isPlaying with
  | false => exact ⟨by simp [animate, hp, SafeTrace], by simpa [animate, hp, applyTrace] using h⟩
  | true =>
      by_cases hend : ((now - s.startEpoch) / 1000 : ℚ) ≥ s.duration
      · obtain ⟨h1, h2⟩ := stopPlayback_sound { s with currentTime := 0 } live h
        refine ⟨?_, ?_⟩
        · simpa [animate, hp, hend] using h1
        · simpa [animate, hp, hend] using h2
      · obtain ⟨h1, h2⟩ := updateActiveOscillators_sound
          { s with currentTime := (now - s.startEpoch) / 1000 } live h
        refine ⟨?_, ?_⟩
        · simpa [animate, hp, hend] using h1
        · simpa [animate, hp, hend] using h2

theorem startPlayback_sound (s : EngineState) (now : ℚ) (live : Nat → Bool)
    (h : LiveMatches live s.oscillators) :
    SafeTrace live (startPlayback s now).2 ∧
      LiveMatches (applyTrace live (startPlayback s now).2)
        (startPlayback s now).1.oscillators := by
  cases hinit : s.audioInit with
  | false =>
      obtain ⟨h1, h2⟩ := animate_sound
        { s with
            audioInit := true
            isPlaying := true
            startEpoch := now - s.currentTime * 1000 } now live h
      refine ⟨?_, ?_⟩
      · simpa [startPlayback, hinit] using h1
      · simpa [startPlayback, hinit] using h2
  | true =>
      obtain ⟨h1, h2⟩ := animate_sound
        { s with isPlaying := true, startEpoch := now - s.currentTime * 1000 }
        now live h
      refine ⟨?_, ?_⟩
      · simpa [startPlayback, hinit] using h1
      · simpa [startPlayback, hinit] using h2

theorem togglePlay_sound (s : EngineState) (now : ℚ) (live : Nat → Bool)
    (h : LiveMatches live s.oscillators) :
    SafeTrace live (togglePlay s now).2 ∧
      LiveMatches (applyTrace live (togglePlay s now).2)
        (togglePlay s now).1.oscillators := by
  cases hp : s.isPlaying with
  | false =>
      obtain ⟨h1, h2⟩ := startPlayback_sound s now live h
      exact ⟨by simpa [togglePlay, hp] using h1, by simpa [togglePlay, hp] using h2⟩
  | true =>
      obtain ⟨h1, h2⟩ := stopPlayback_sound s live h
      exact ⟨by simpa [togglePlay, hp] using h1, by simpa [togglePlay, hp] using h2⟩

theorem seekTo_sound (s : EngineState) (targetTime : ℚ) (live : Nat → Bool)
    (h : LiveMatches live s.oscillators) :
    SafeTrace live (seekTo s targetTime).2 ∧
      LiveMatches (applyTrace live (seekTo s targetTime).2)
        (seekTo s targetTime).1.oscillators := by
  cases hsel : s.selectedBlockId.isSome with
  | true =>
      exact ⟨by simp [seekTo, hsel, SafeTrace],
        by simpa [seekTo, hsel, applyTrace] using h⟩
  | false =>
      cases hp : s.isPlaying with
      | false =>
          exact ⟨by simp [seekTo, hsel, hp, SafeTrace],
            by simpa [seekTo, hsel, hp, applyTrace] using h⟩
      | true =>
          obtain ⟨h1, h2⟩ := updateActiveOscillators_sound
            { s with currentTime := max 0 (min targetTime s.duration) } live h
          exact ⟨by simpa [seekTo, hsel, hp] using h1,
            by simpa [seekTo, hsel, hp] using h2⟩

theorem updateBlock_sound (s : EngineState) (d : BlockUpdate) (live : Nat → Bool)
    (h : LiveMatches live s.oscillators) :
    SafeTrace live (updateBlock s d).2 ∧
      LiveMatches (applyTrace live (updateBlock s d).2)
        (updateBlock s d).1.oscillators := by
  cases hp : s.isPlaying with
  | false =>
      exact ⟨by simp [updateBlock, hp, SafeTrace],
        by simpa [updateBlock, hp, applyTrace] using h⟩
  | true =>
      cases hf : (s.blocks.map (applyBlockUpdate d)).find?
          (fun block => block.id == d.id) with
      | none =>
          exact ⟨by simp [updateBlock, hp, hf, SafeTrace],
            by simpa [updateBlock, hp, hf, applyTrace] using h⟩
      | some block =>
          by_cases hact : s.currentTime ≥ block.startTime ∧
              s.currentTime < block.startTime + block.duration
          · obtain ⟨h1, h2⟩ := createOscillator_sound
              { s with blocks := s.blocks.map (applyBlockUpdate d) }
              block.id block.frequency block.type live h
            exact ⟨by simpa [updateBlock, hp, hf, hact] using h1,
              by simpa [updateBlock, hp, hf, hact] using h2⟩
          · obtain ⟨h1, h2⟩ := stopOscillator_sound
              { s with blocks := s.blocks.map (applyBlockUpdate d) }
              block.id live h
            exact ⟨by simpa [updateBlock, hp, hf, hact] using h1,
              by simpa [updateBlock, hp, hf, hact] using h2⟩

theorem deleteBlock_sound (s : EngineState) (blockId : Nat) (live : Nat → Bool)
    (h : LiveMatches live s.oscillators) :
    SafeTrace live (deleteBlock s blockId).2 ∧
      LiveMatches (applyTrace live (deleteBlock s blockId).2)
        (deleteBlock s blockId).1.oscillators := by
  obtain ⟨h1, h2⟩ := stopOscillator_sound
    { s with blocks := s.blocks.filter (fun block => block.id != blockId) }
    blockId live h
  exact ⟨h1, h2⟩

theorem step_sound (s : EngineState) (op : Op) (live : Nat → Bool)
    (h : LiveMatches live s.oscillators) :
    SafeTrace live (step s op).2 ∧
      LiveMatches (applyTrace live (step s op).2) (step s op).1.oscillators := by
  cases op with
  | togglePlay now => exact togglePlay_sound s now live h
  | stopBtn => exact stopPlayback_sound s live h
  | tick now => exact animate_sound s now live h
  | seek t => exact seekTo_sound s t live h
  | editBlock d => exact updateBlock_sound s d live h
  | deleteB blockId => exact deleteBlock_sound s blockId live h
  | removeTr trackId =>
      exact ⟨trivial, by simpa [step, removeTrack, applyTrace] using h⟩
  | addB trackId t =>
      exact ⟨trivial, by simpa [step, addBlock, applyTrace] using h⟩
  | addTr => exact ⟨trivial, by simpa [step, addTrack, applyTrace] using h⟩
  | select sel => exact ⟨trivial, by simpa [step, selectBlock, applyTrace] using h⟩

theorem run_sound (ops : List Op) :
    ∀ (s : EngineState) (live : Nat → Bool), LiveMatches live s.oscillators →
      SafeTrace live (run s ops).2 ∧
        LiveMatches (applyTrace live (run s ops).2) ((run s ops).1).oscillators := by
  induction ops with
  | nil => intro s live h; exact ⟨trivial, h⟩
  | cons op rest ih =>
      intro s live h
      obtain ⟨h1, h2⟩ := step_sound s op live h
      obtain ⟨h3, h4⟩ := ih (step s op).1 _ h2
      refine ⟨?_, ?_⟩
      · simp only [run, safeTrace_append]
        exact ⟨h1, h3⟩
      · simp only [run, applyTrace_append]
        exact h4

/-! ## Trace shape of one reconciliation pass -/

theorem stopOscillator_trace_stops (s : EngineState) (blockId : Nat) :
    ((stopOscillator s blockId).2).all isStopInstr = true := by
  cases hl : mapLookup s.oscillators blockId <;>
    simp [stopOscillator, hl, isStopInstr]

theorem stopInactivePhase_trace_stops (active : List Block) (l : List Block) :
    ∀ s : EngineState, ((stopInactivePhase active s l).2).all isStopInstr = true := by
  induction l with
  | nil => intro s; rfl
  | cons block rest ih =>
      intro s
      cases hb : active.any (fun activeBlock => activeBlock.id == block.id) with
      | true => simpa [stopInactivePhase, hb] using ih s
      | false =>
          simp [stopInactivePhase, hb, List.all_append,
            stopOscillator_trace_stops, ih]

theorem createOscillator_trace_absent (s : EngineState) (blockId : Nat) (f : ℚ)
    (w : Waveform) (hl : mapLookup s.oscillators blockId = none) :
    ((createOscillator s blockId f w).2).all isStartInstr = true := by
  cases hinit : s.audioInit with
  | false => simp [createOscillator, hinit]
  | true => simp [createOscillator, hinit, stopOscillator, hl, isStartInstr]

theorem startActivePhase_trace_starts (l : List Block) :
    ∀ s : EngineState, ((startActivePhase s l).2).all isStartInstr = true := by
  induction l with
  | nil => intro s; rfl
  | cons block rest ih =>
      intro s
      cases hl : mapLookup s.oscillators block.id with
      | some o => simpa [startActivePhase, hl] using ih s
      | none =>
          simp [startActivePhase, hl, List.all_append,
            createOscillator_trace_absent s block.id block.frequency block.type hl,
            ih]

/-! ## Claim theorems -/

/-- C1: for every engine state (hence every block list and playhead time),
`getActiveBlocks` returns exactly the blocks of the store satisfying
`startTime ≤ currentTime < startTime + duration` — inclusive at the start
boundary, exclusive at the end boundary. -/
theorem getActiveBlocks_mem_iff (s : EngineState) (block : Block) :
    block ∈ getActiveBlocks s ↔
      block ∈ s.blocks ∧ block.startTime ≤ s.currentTime ∧
        s.currentTime < block.startTime + block.duration := by
  simp [getActiveBlocks, List.mem_filter, and_assoc]

/-- C5: (a) along every operation sequence from the initial state, the
backend never receives a `start` for a block id whose generator is still
live — so at most one generator per block id exists at every instant of the
emitted call trace; (b) within any single reconciliation pass
(`updateActiveOscillators`), the emitted trace is a block of stops followed
by a block of starts, so every stop of an id precedes any start reusing it. -/
theorem generator_uniqueness_and_stop_before_start :
    (∀ ops : List Op, SafeTrace (fun _ => false) (run initState ops).2) ∧
      (∀ s : EngineState, ∃ stops starts,
        (updateActiveOscillators s).2 = stops ++ starts ∧
          stops.all isStopInstr = true ∧ starts.all isStartInstr = true) := by
  constructor
  · intro ops
    have hinit : LiveMatches (fun _ => false) initState.oscillators := by
      intro j; rfl
    exact (run_sound ops initState _ hinit).1
  · intro s
    exact ⟨(stopInactivePhase (getActiveBlocks s) s s.blocks).2,
      (startActivePhase (stopInactivePhase (getActiveBlocks s) s s.blocks).1
        (getActiveBlocks s)).2,
      rfl, stopInactivePhase_trace_stops _ _ s,
      startActivePhase_trace_starts _ _⟩

/-- C6: for every state and block id, immediately after `deleteBlock` the
block is gone from the store and no oscillator is stored for the id — the
stop is unconditional and synchronous, with no tick in between, whether or
not the transport is playing. -/
theorem deleteBlock_removes_block_and_generator (s : EngineState)
    (blockId : Nat) :
    ((deleteBlock s blockId).1.blocks.all (fun block => block.id != blockId)) = true ∧
      mapLookup (deleteBlock s blockId).1.oscillators blockId = none := by
  constructor
  · have hosc := stopOscillator_oscOnly
      { s with blocks := s.blocks.filter (fun block => block.id != blockId) } blockId
    have hblocks := hosc.2.2.2.2.1
    rw [deleteBlock, hblocks]
    rw [List.all_eq_true]
    intro block hb
    exact (List.mem_filter.mp hb).2
  · exact stopOscillator_lookup_self _ blockId

/-! ## The stopped-transport invariant -/

/-- Whenever the transport is not playing, no generator is stored. -/
def StoppedSilent (s : EngineState) : Prop :=
  s.isPlaying = false → s.oscillators = []

theorem stopPlayback_silent (s : EngineState) :
    (stopPlayback s).1.isPlaying = false ∧ (stopPlayback s).1.oscillators = [] :=
  ⟨rfl, rfl⟩

theorem animate_stoppedSilent (s : EngineState) (now : ℚ)
    (h : StoppedSilent s) : StoppedSilent (animate s now).1 := by
  cases hp : s.isPlaying with
  | false =>
      intro h'
      simpa [animate, hp] using h hp
  | true =>
      by_cases hend : ((now - s.startEpoch) / 1000 : ℚ) ≥ s.duration
      · intro h'
        simpa [animate, hp, hend] using
          (stopPlayback_silent { s with currentTime := 0 }).2
      · intro h'
        exfalso
        have h1 : (updateActiveOscillators
            { s with currentTime := (now - s.startEpoch) / 1000 }).1.isPlaying
              = s.isPlaying :=
          (updateActiveOscillators_oscOnly _).2.2.1
        rw [hp] at h1
        have : (animate s now).1.isPlaying = true := by
          simp only [animate, hp, hend, if_false, if_true]
          simpa using h1
        rw [h'] at this
        exact Bool.false_ne_true this

theorem startPlayback_stoppedSilent (s : EngineState) (now : ℚ) :
    StoppedSilent (startPlayback s now).1 := by
  cases hinit : s.audioInit with
  | false =>
      have := animate_stoppedSilent
        { s with
            audioInit := true
            isPlaying := true
            startEpoch := now - s.currentTime * 1000 } now
        (fun hfalse => absurd hfalse (by simp))
      simpa [startPlayback, hinit] using this
  | true =>
      have := animate_stoppedSilent
        { s with isPlaying := true, startEpoch := now - s.currentTime * 1000 } now
        (fun hfalse => absurd hfalse (by simp))
      simpa [startPlayback, hinit] using this

theorem step_stoppedSilent (s : EngineState) (op : Op) (h : StoppedSilent s) :
    StoppedSilent (step s op).1 := by
  cases op with
  | togglePlay now =>
      cases hp : s.isPlaying with
      | false =>
          have := startPlayback_stoppedSilent s now
          simpa [step, togglePlay, hp] using this
      | true =>
          intro h'
          simpa [step, togglePlay, hp] using (stopPlayback_silent s).2
  | stopBtn =>
      intro h'
      exact (stopPlayback_silent s).2
  | tick now => exact animate_stoppedSilent s now h
  | seek t =>
      cases hsel : s.selectedBlockId.isSome with
      | true => intro h'; simpa [step, seekTo, hsel] using h (by simpa [step, seekTo, hsel] using h')
      | false =>
          cases hp : s.isPlaying with
          | false =>
              intro h'
              simpa [step, seekTo, hsel, hp] using h hp
          | true =>
              intro h'
              exfalso
              have h1 : (updateActiveOscillators
                  { s with currentTime := max 0 (min t s.duration) }).1.isPlaying
                    = s.isPlaying :=
                (updateActiveOscillators_oscOnly _).2.2.1
              rw [hp] at h1
              have : (seekTo s t).1.isPlaying = true := by
                simp only [seekTo, hsel, Bool.false_eq_true, if_false, hp, if_true]
                simpa using h1
              rw [show (step s (Op.seek t)).1 = (seekTo s t).1 from rfl] at h'
              rw [h'] at this
              exact Bool.false_ne_true this
  | editBlock d =>
      cases hp : s.isPlaying with
      | false =>
          intro h'
          simpa [step, updateBlock, hp] using h hp
      | true =>
          intro h'
          exfalso
          have : (updateBlock s d).1.isPlaying = true := by
            cases hf : (s.blocks.map (applyBlockUpdate d)).find?
                (fun block => block.id == d.id) with
            | none => simp [updateBlock, hp, hf]
            | some block =>
                by_cases hact : s.currentTime ≥ block.startTime ∧
                    s.currentTime < block.startTime + block.duration
                · have h1 : (createOscillator
                      { s with blocks := s.blocks.map (applyBlockUpdate d) }
                      block.id block.frequency block.type).1.isPlaying
                        = s.isPlaying :=
                    (createOscillator_oscOnly _ _ _ _).2.2.1
                  rw [hp] at h1
                  simp only [updateBlock, hp, if_true, hf, hact, if_pos]
                  simpa using h1
                · have h1 : (stopOscillator
                      { s with blocks := s.blocks.map (applyBlockUpdate d) }
                      block.id).1.isPlaying = s.isPlaying :=
                    (stopOscillator_oscOnly _ _).2.2.1
                  rw [hp] at h1
                  simp only [updateBlock, hp, if_true, hf, hact, if_neg,
                    not_false_iff]
                  simpa using h1
          rw [show (step s (Op.editBlock d)).1 = (updateBlock s d).1 from rfl] at h'
          rw [h'] at this
          exact Bool.false_ne_true this
  | deleteB blockId =>
      cases hp : s.isPlaying with
      | false =>
          intro h'
          have hempty : s.oscillators = [] := h hp
          simp [step, deleteBlock, stopOscillator, hempty, mapLookup_nil]
      | true =>
          intro h'
          exfalso
          have hosc := stopOscillator_oscOnly
            { s with blocks := s.blocks.filter (fun block => block.id != blockId) }
            blockId
          have : (deleteBlock s blockId).1.isPlaying = true := by
            simpa [deleteBlock] using hosc.2.2.1.trans hp
          rw [show (step s (Op.deleteB blockId)).1 = (deleteBlock s blockId).1
            from rfl] at h'
          rw [h'] at this
          exact Bool.false_ne_true this
  | removeTr trackId => intro h'; exact h (by simpa [step, removeTrack] using h')
  | addB trackId t => intro h'; exact h (by simpa [step, addBlock] using h')
  | addTr => intro h'; exact h (by simpa [step, addTrack] using h')
  | select sel => intro h'; exact h (by simpa [step, selectBlock] using h')

theorem run_stoppedSilent (ops : List Op) :
    ∀ s : EngineState, StoppedSilent s → StoppedSilent (run s ops).1 := by
  induction ops with
  | nil => intro s h; exact h
  | cons op rest ih =>
      intro s h
      have h1 := step_stoppedSilent s op h
      have h2 := ih (step s op).1 h1
      simpa [run] using h2

/-! ## Field computations of the transport operations -/

theorem stopPlayback_fields (s : EngineState) :
    (stopPlayback s).1.currentTime = s.currentTime ∧
      (stopPlayback s).1.blocks = s.blocks :=
  ⟨rfl, rfl⟩

theorem animate_no_end_fields (s : EngineState) (now : ℚ)
    (hp : s.isPlaying = true)
    (hend : ¬ ((now - s.startEpoch) / 1000 ≥ s.duration)) :
    (animate s now).1.currentTime = (now - s.startEpoch) / 1000 ∧
      (animate s now).1.blocks = s.blocks ∧
      (animate s now).1.startEpoch = s.startEpoch ∧
      (animate s now).1.isPlaying = true := by
  have ho := updateActiveOscillators_oscOnly
    { s with currentTime := (now - s.startEpoch) / 1000 }
  rw [hp] at ho
  refine ⟨?_, ?_, ?_, ?_⟩ <;>
    · simp only [animate, hp, hend, if_false, if_true]
      simp [ho.1, ho.2.1, ho.2.2.1, ho.2.2.2.2.1, ho.2.2.2.2.2.2.2.2.1]

theorem seekTo_playing_fields (s : EngineState) (t : ℚ)
    (hsel : s.selectedBlockId.isSome = false) (hp : s.isPlaying = true) :
    (seekTo s t).1.currentTime = max 0 (min t s.duration) ∧
      (seekTo s t).1.startEpoch = s.startEpoch ∧
      (seekTo s t).1.isPlaying = true ∧
      (seekTo s t).1.duration = s.duration := by
  have ho := updateActiveOscillators_oscOnly
    { s with currentTime := max 0 (min t s.duration) }
  rw [hp] at ho
  refine ⟨?_, ?_, ?_, ?_⟩ <;>
    · simp only [seekTo, hsel, Bool.false_eq_true, if_false, hp, if_true]
      simp [ho.1, ho.2.1, ho.2.2.1, ho.2.2.2.2.2.2.2.2.1]

theorem startPlayback_fields (s : EngineState) (now : ℚ)
    (hlt : s.currentTime < s.duration) :
    (startPlayback s now).1.startEpoch = now - s.currentTime * 1000 ∧
      (startPlayback s now).1.currentTime = s.currentTime ∧
      (startPlayback s now).1.blocks = s.blocks ∧
      (startPlayback s now).1.isPlaying = true := by
  have hct : (now - (now - s.currentTime * 1000)) / 1000 = s.currentTime := by
    ring
  cases hinit : s.audioInit with
  | false =>
      have hfields := animate_no_end_fields
        { s with
            audioInit := true
            isPlaying := true
            startEpoch := now - s.currentTime * 1000 } now rfl
        (by
          show ¬ ((now - (now - s.currentTime * 1000)) / 1000 ≥ s.duration)
          rw [hct]
          exact not_le.mpr hlt)
      have hsp : startPlayback s now =
          animate
            { s with
                audioInit := true
                isPlaying := true
                startEpoch := now - s.currentTime * 1000 } now := by
        simp [startPlayback, hinit]
      obtain ⟨h1, h2, h3, h4⟩ := hfields
      refine ⟨?_, ?_, ?_, ?_⟩
      · rw [hsp]; exact h3
      · rw [hsp, h1]; exact hct
      · rw [hsp]; exact h2
      · rw [hsp]; exact h4
  | true =>
      have hfields := animate_no_end_fields
        { s with
            isPlaying := true
            startEpoch := now - s.currentTime * 1000 } now rfl
        (by
          show ¬ ((now - (now - s.currentTime * 1000)) / 1000 ≥ s.duration)
          rw [hct]
          exact not_le.mpr hlt)
      have hsp : startPlayback s now =
          animate
            { s with
                isPlaying := true
                startEpoch := now - s.currentTime * 1000 } now := by
        simp [startPlayback, hinit]
      obtain ⟨h1, h2, h3, h4⟩ := hfields
      refine ⟨?_, ?_, ?_, ?_⟩
      · rw [hsp]; exact h3
      · rw [hsp, h1]; exact hct
      · rw [hsp]; exact h2
      · rw [hsp]; exact h4

/-- C10: along every operation sequence from the initial state, whenever the
transport ends up not playing (initially, after stop, after auto-stop) the
stored generator set is empty; no operation performed while stopped creates
one. -/
theorem stopped_implies_no_generators (ops : List Op)
    (h : (run initState ops).1.isPlaying = false) :
    (run initState ops).1.oscillators = [] :=
  run_stoppedSilent ops initState (fun _ => rfl) h

/-- Witness for C10: after a single seek while stopped, the transport is
stopped and no generator exists. -/
theorem stopped_implies_no_generators_witness :
    (run initState [Op.seek 5]).1.oscillators = [] :=
  stopped_implies_no_generators [Op.seek 5] rfl

/-- C8: on any tick whose recomputed `currentTime` reaches or exceeds the
timeline duration, the clock wraps `currentTime` to 0, transitions to
Stopped, clears every generator, cancels the pending frame, and a further
tick at any instant is a no-op (no further ticks fire). -/
theorem animate_auto_stop (s : EngineState) (now now2 : ℚ)
    (hplay : s.isPlaying = true)
    (hend : (now - s.startEpoch) / 1000 ≥ s.duration) :
    (animate s now).1.currentTime = 0 ∧ (animate s now).1.isPlaying = false ∧
      (animate s now).1.oscillators = [] ∧
      (animate s now).1.frameScheduled = false ∧
      animate (animate s now).1 now2 = ((animate s now).1, []) := by
  have hres : animate s now = stopPlayback { s with currentTime := 0 } := by
    simp [animate, hplay, hend]
  rw [hres]
  refine ⟨rfl, rfl, rfl, rfl, ?_⟩
  have hstopped : (stopPlayback { s with currentTime := 0 }).1.isPlaying = false :=
    rfl
  simp [animate, hstopped]

/-- Witness for C8: a tick at 60000 ms with epoch 0 from position 59 s
auto-stops, wraps to 0, silences everything, and the next tick is inert. -/
theorem animate_auto_stop_witness :
    (animate autoStopState 60000).1.currentTime = 0 ∧
      (animate autoStopState 60000).1.isPlaying = false ∧
      (animate autoStopState 60000).1.oscillators = [] ∧
      (animate autoStopState 60000).1.frameScheduled = false ∧
      animate (animate autoStopState 60000).1 0 =
        ((animate autoStopState 60000).1, []) :=
  animate_auto_stop autoStopState 60000 0 rfl
    (by norm_num [autoStopState, initState])

/-- C2 (code bug): `seekTo` clamps and sets `currentTime` (here to 5 s) and,
while playing, reconciles — but it never updates the reference epoch, so the
very next tick (at 10000 ms, epoch 0) recomputes `currentTime = 10` from the
unchanged epoch, discarding the seek: a discontinuity instead of continuing
from the seeked position. -/
theorem seekTo_epoch_unchanged_reverts :
    (seekTo playingSeekState 5).1.currentTime = 5 ∧
      (seekTo playingSeekState 5).1.startEpoch = 0 ∧
      (animate (seekTo playingSeekState 5).1 10000).1.currentTime = 10 := by
  obtain ⟨hc, he, hpl, hd⟩ := seekTo_playing_fields playingSeekState 5 rfl rfl
  have hc5 : (seekTo playingSeekState 5).1.currentTime = 5 := by
    rw [hc]
    norm_num [playingSeekState, initState, min_def, max_def]
  have he0 : (seekTo playingSeekState 5).1.startEpoch = 0 := by
    rw [he]; rfl
  refine ⟨hc5, he0, ?_⟩
  have hend : ¬ ((10000 - (seekTo playingSeekState 5).1.startEpoch) / 1000 ≥
      (seekTo playingSeekState 5).1.duration) := by
    rw [he0, hd]
    norm_num [playingSeekState, initState]
  obtain ⟨h1, h2, h3, h4⟩ :=
    animate_no_end_fields (seekTo playingSeekState 5).1 10000 hpl hend
  rw [h1, he0]
  norm_num

/-- C4 (code bug): in a playing state where block 3 (the only block of
track 2) is active and holds a live generator, `removeTrack 2` cascades the
block out of the store but never stops or removes the generator: a live
generator remains for a block id that no longer exists. -/
theorem removeTrack_leaves_live_generator :
    playingTrackState.isPlaying = true ∧
      ((removeTrack playingTrackState 2).1.blocks.all
        (fun block => block.id != 3)) = true ∧
      mapLookup (removeTrack playingTrackState 2).1.oscillators 3 =
        some { frequency := 880, type := Waveform.square } ∧
      (removeTrack playingTrackState 2).2 = [] :=
  ⟨rfl, rfl, rfl, rfl⟩

/-- C3 counterexample: while playing, an `update` event whose payload is
identical to block 1's current fields (frequency and waveform unchanged,
block active before and after) still emits backend calls — a stop of the
live generator followed by a fresh start, not an update-in-place and not
silence. -/
theorem updateBlock_noop_edit_emits_stop_start :
    (updateBlock playingEditState identityEdit).2 =
        [Instr.stop 1, Instr.start 1 440 Waveform.sine] ∧
      (updateBlock playingEditState identityEdit).2 ≠ [] := by
  have hf : (playingEditState.blocks.map (applyBlockUpdate identityEdit)).find?
      (fun block => block.id == identityEdit.id) =
      some { id := 1, trackId := 1, startTime := 0, duration := 4,
             frequency := 440, type := Waveform.sine } := rfl
  have hp : playingEditState.isPlaying = true := rfl
  have hosc : mapLookup playingEditState.oscillators 1 =
      some { frequency := 440, type := Waveform.sine } := rfl
  have hact : playingEditState.currentTime ≥ (0 : ℚ) ∧
      playingEditState.currentTime < 0 + 4 := by
    constructor <;> norm_num [playingEditState, initState]
  have htrace : (updateBlock playingEditState identityEdit).2 =
      [Instr.stop 1, Instr.start 1 440 Waveform.sine] := by
    have hai : playingEditState.audioInit = true := rfl
    simp only [updateBlock, hp, if_true, hf]
    rw [if_pos hact]
    simp [createOscillator, hai, stopOscillator, hosc]
  exact ⟨htrace, by rw [htrace]; simp⟩

/-- C3 amended: while playing, an edit to a block that is active after the
edit re-creates the block's generator — when a generator for the id is live
the engine emits a stop of it followed immediately by a fresh start (a
stop+start restart), even when the edit changes neither frequency nor
waveform; there is no update-in-place instruction. -/
theorem updateBlock_active_edit_restarts (s : EngineState) (d : BlockUpdate)
    (block : Block) (osc : Osc)
    (hplay : s.isPlaying = true) (hinit : s.audioInit = true)
    (hfind : (s.blocks.map (applyBlockUpdate d)).find?
        (fun b => b.id == d.id) = some block)
    (hact : s.currentTime ≥ block.startTime ∧
        s.currentTime < block.startTime + block.duration)
    (hosc : mapLookup s.oscillators block.id = some osc) :
    (updateBlock s d).2 =
      [Instr.stop block.id, Instr.start block.id block.frequency block.type] := by
  simp only [updateBlock, hplay, if_true, hfind]
  rw [if_pos hact]
  simp [createOscillator, hinit, stopOscillator, hosc]

/-- Witness for C3's amended claim: editing active block 1's frequency to
660 Hz and waveform to triangle while its generator is live emits exactly a
stop of id 1 followed by a fresh start at the new settings. -/
theorem updateBlock_active_edit_restarts_witness :
    (updateBlock playingEditState editWitnessUpdate).2 =
      [Instr.stop 1, Instr.start 1 660 Waveform.triangle] :=
  updateBlock_active_edit_restarts playingEditState editWitnessUpdate
    { id := 1, trackId := 1, startTime := 0, duration := 4,
      frequency := 660, type := Waveform.triangle }
    { frequency := 440, type := Waveform.sine }
    rfl rfl rfl
    (by constructor <;> norm_num [playingEditState, initState])
    rfl

/-- C7 counterexample: with a 440 Hz sine generator live for block id 1,
`createOscillator` for the same id is not a no-op: it emits backend calls
and replaces the stored generator with a fresh 660 Hz square one. -/
theorem createOscillator_existing_not_noop :
    (mapLookup dualOscState.oscillators 1).isSome = true ∧
      (createOscillator dualOscState 1 660 Waveform.square).2 ≠ [] ∧
      mapLookup (createOscillator dualOscState 1 660 Waveform.square).1.oscillators
          1 = some { frequency := 660, type := Waveform.square } := by
  refine ⟨rfl, ?_, rfl⟩
  have htr : (createOscillator dualOscState 1 660 Waveform.square).2 =
      [Instr.stop 1, Instr.start 1 660 Waveform.square] := rfl
  rw [htr]
  simp

/-- C7 amended: when a generator for `blockId` already exists (and the audio
context is initialized), the adapter's start operation is not a no-op: it
stops the existing generator and creates a fresh one in its place — a
stop-then-start replacement, which keeps at most one generator per id. -/
theorem createOscillator_existing_restarts (s : EngineState) (blockId : Nat)
    (f : ℚ) (w : Waveform) (osc : Osc)
    (hinit : s.audioInit = true)
    (hosc : mapLookup s.oscillators blockId = some osc) :
    (createOscillator s blockId f w).2 =
        [Instr.stop blockId, Instr.start blockId f w] ∧
      mapLookup (createOscillator s blockId f w).1.oscillators blockId =
        some { frequency := f, type := w } := by
  constructor
  · simp [createOscillator, hinit, stopOscillator, hosc]
  · have habs := stopOscillator_lookup_self s blockId
    have hstep : mapLookup (mapSet (stopOscillator s blockId).1.oscillators
        blockId { frequency := f, type := w }) blockId =
        some { frequency := f, type := w } := by
      rw [mapSet, habs]
      simpa using mapLookup_append_absent _ blockId
        { frequency := f, type := w } habs
    simpa [createOscillator, hinit] using hstep

/-- Witness for C7's amended claim: starting id 1 at 550 Hz sawtooth while a
440 Hz sine generator is live emits stop-then-start and stores the fresh
generator. -/
theorem createOscillator_existing_restarts_witness :
    (createOscillator dualOscState 1 550 Waveform.sawtooth).2 =
        [Instr.stop 1, Instr.start 1 550 Waveform.sawtooth] ∧
      mapLookup (createOscillator dualOscState 1 550 Waveform.sawtooth).1.oscillators
          1 = some { frequency := 550, type := Waveform.sawtooth } :=
  createOscillator_existing_restarts dualOscState 1 550 Waveform.sawtooth
    { frequency := 440, type := Waveform.sine } rfl rfl

/-- C9 counterexample: from the stopped state seeked exactly to the timeline
end (`currentTime = 60 = timelineDuration`), starting playback immediately
auto-stops (the synchronous first tick sees `currentTime ≥ duration`) and
wraps `currentTime` to 0, so start-then-immediately-stop does not leave the
timeline state unchanged. -/
theorem start_stop_at_end_changes_time :
    endSeekState.isPlaying = false ∧
      (stopPlayback (startPlayback endSeekState 100000).1).1.currentTime = 0 ∧
      endSeekState.currentTime = 60 ∧
      (stopPlayback (startPlayback endSeekState 100000).1).1.currentTime ≠
        endSeekState.currentTime := by
  have hcur : (stopPlayback (startPlayback endSeekState 100000).1).1.currentTime
      = 0 := by
    have hc : ((100000 : ℚ) - (100000 - 60 * 1000)) / 1000 ≥ 60 := by norm_num
    have hres : startPlayback endSeekState 100000 =
        stopPlayback { endSeekState with
          audioInit := true
          isPlaying := true
          startEpoch := 100000 - 60 * 1000
          currentTime := 0 } := by
      simp [startPlayback, endSeekState, initState, animate]
    rw [hres]
    rfl
  refine ⟨rfl, hcur, rfl, ?_⟩
  rw [hcur]
  norm_num [endSeekState, initState]

/-- C9 amended: for every stopped state with `currentTime` strictly below
the timeline duration, starting computes the reference epoch as
`now − currentTime·1000` (resuming, not restarting) and starting then
immediately stopping at the same instant leaves `currentTime` and the block
store unchanged; at `currentTime ≥ duration` this fails (see the
counterexample) because starting auto-stops at once and wraps to 0. -/
theorem start_stop_roundtrip_preserves_state (s : EngineState) (now : ℚ)
    (_hstop : s.isPlaying = false) (hlt : s.currentTime < s.duration) :
    (startPlayback s now).1.startEpoch = now - s.currentTime * 1000 ∧
      (stopPlayback (startPlayback s now).1).1.currentTime = s.currentTime ∧
      (stopPlayback (startPlayback s now).1).1.blocks = s.blocks := by
  obtain ⟨he, hc, hb, hp⟩ := startPlayback_fields s now hlt
  exact ⟨he, ((stopPlayback_fields (startPlayback s now).1).1).trans hc,
    ((stopPlayback_fields (startPlayback s now).1).2).trans hb⟩

/-- Witness for C9's amended claim at the initial state (stopped,
`currentTime = 0 < 60`) and instant 12345 ms. -/
theorem start_stop_roundtrip_witness :
    (startPlayback initState 12345).1.startEpoch =
        12345 - initState.currentTime * 1000 ∧
      (stopPlayback (startPlayback initState 12345).1).1.currentTime =
        initState.currentTime ∧
      (stopPlayback (startPlayback initState 12345).1).1.blocks =
        initState.blocks :=
  start_stop_roundtrip_preserves_state initState 12345 rfl
    (by norm_num [initState])
